import Mathlib

/-!
# ClaudeCodeSounds: the hook generator, the settings merger and the selection state machine

A shallow embedding of `main.go` (and of the checks of `main_test.go`) together with the
properties of the settings merge that the specification states.

Conventions of the embedding.

* A Go `map[string]T` is an association list `List (String × T)`; `mapGet` reads the first
  binding of a key, `mapSet` overwrites it in place or appends, `mapDelete` drops every binding
  of the key.  A map variable that may be `nil` is an `Option` of such a list.
* A Go `interface{}` of the settings document is a `Value`.  The `map[string]string` that
  `generateHooks` stores is an `obj` whose values are `str`: it encodes to the same JSON object,
  and the program never inspects a generated entry again.
* A Go `error` is its message, a `String`; a `nil` error is `none`.
* Library calls whose result the program only passes along (path joining, JSON text decoding and
  encoding, the clock, failing system calls) are fields of `Platform` and `Env`.
-/

namespace ClaudeCodeSounds

/-! ## Values and maps -/

/-- The dynamic values an `interface{}` of the settings document can hold: `nil`, `bool`,
`float64` (kept as an uninterpreted code), `string`, `[]interface{}` and a map with string
keys. -/
inductive Value where
  | null
  | bool (b : Bool)
  | num (float64 : Nat)
  | str (s : String)
  | arr (xs : List Value)
  | obj (kvs : List (String × Value))

/-- Map read `m[k]` with the comma-ok result folded into the option. -/
def mapGet {α : Type} : List (String × α) → String → Option α
  | [], _ => none
  | (k', v) :: rest, k => if k' = k then some v else mapGet rest k

/-- Map assignment `m[k] = v`. -/
def mapSet {α : Type} : List (String × α) → String → α → List (String × α)
  | [], k, v => [(k, v)]
  | (k', v') :: rest, k, v => if k' = k then (k, v) :: rest else (k', v') :: mapSet rest k v

/-- Built-in `delete(m, k)`. -/
def mapDelete {α : Type} (m : List (String × α)) (k : String) : List (String × α) :=
  m.filter (fun kv => decide (kv.1 ≠ k))

/-- The keys of a map, in storage order. -/
def mapKeys {α : Type} (m : List (String × α)) : List String := m.map Prod.fst

/-! ## Data model of `main.go` -/

/-- `SoundSuite` represents a collection of themed sounds. -/
structure SoundSuite where
  Name : String
  Desc : String
  Path : String
  PreviewFile : String

/-- The platform the binary runs on: `runtime.GOOS`, `filepath.Join` on two elements and
`filepath.Dir`. -/
structure Platform where
  goos : String
  join : String → String → String
  dir : String → String

/-- Hook types we manage (sound-related only). -/
def soundHooks : List String :=
  [ "session_start",
    "session_end",
    "tool_start",
    "tool_complete",
    "prompt_submit",
    "response_start",
    "response_end",
    "subagent_done",
    "precompact_warning",
    "notification" ]

/-- The table local to `getHookDescription`. -/
def descriptions : List (String × String) :=
  [ ("session_start", "Plays when a Claude Code session starts"),
    ("session_end", "Plays when a Claude Code session ends"),
    ("tool_start", "Plays when a tool begins execution"),
    ("tool_complete", "Plays when a tool finishes execution"),
    ("prompt_submit", "Plays when user submits a prompt"),
    ("response_start", "Plays when Claude starts responding"),
    ("response_end", "Plays when Claude finishes responding"),
    ("subagent_done", "Plays when a subagent completes its task"),
    ("precompact_warning", "Plays before context window compaction"),
    ("notification", "General notification sound") ]

/-- `getHookDescription` returns a human-readable description for each hook. -/
def getHookDescription (hookName : String) : String :=
  match mapGet descriptions hookName with
  | some desc => desc
  | none => ""

/-- `strings.ReplaceAll` for a pattern and a replacement of one character each. -/
def replaceAll (s : String) (old new : Char) : String :=
  String.mk (s.toList.map (fun c => if c = old then new else c))

/-- The body of the loop of `generateHooks` up to the assignment: the shell command of one
hook. -/
def hookCommand (p : Platform) (audioPlayer : String) (suite : SoundSuite)
    (hookName : String) : String :=
  let isWindows := p.goos == "windows"
  let soundFile := p.join suite.Path (hookName ++ ".wav")
  let soundFile := if isWindows then replaceAll soundFile '/' '\\' else soundFile
  if isWindows then
    "powershell -c (New-Object Media.SoundPlayer \x27" ++ soundFile ++ "\x27).PlaySync();"
  else
    audioPlayer ++ " " ++ soundFile ++ " &"

/-- The value `generateHooks` stores under one hook name. -/
def hookEntry (p : Platform) (audioPlayer : String) (suite : SoundSuite)
    (hookName : String) : Value :=
  Value.obj
    [ ("command", Value.str (hookCommand p audioPlayer suite hookName)),
      ("description", Value.str (getHookDescription hookName)) ]

/-- `generateHooks` creates the hooks configuration for a sound suite. -/
def generateHooks (p : Platform) (audioPlayer : String) (suite : SoundSuite) :
    List (String × Value) :=
  soundHooks.foldl (fun hooks hookName => mapSet hooks hookName (hookEntry p audioPlayer suite hookName)) []

/-! ## The checks of `main_test.go` -/

/-- The table `expectedMappings` of `TestHookNameMapping`: internal identifier, external name. -/
def expectedMappings : List (String × String) :=
  [ ("session_start", "SessionStart"),
    ("session_end", "SessionEnd"),
    ("tool_start", "PreToolUse"),
    ("tool_complete", "PostToolUse"),
    ("prompt_submit", "UserPromptSubmit"),
    ("response_start", "ResponseStart"),
    ("response_end", "ResponseEnd"),
    ("subagent_done", "SubagentStop"),
    ("precompact_warning", "PreCompact"),
    ("notification", "Notification") ]

/-- Modelled from the spec: the table `soundHookMapping` that `main_test.go` reads and `main.go`
does not declare.  The specification fixes its ten pairs, and `TestHookNameMapping` requires the
same ten. -/
def soundHookMapping : List (String × String) := expectedMappings

/-- The structural checks `TestHookStructure` runs on one generated value: an array of one map
whose `"hooks"` is an array of one map with `"type"` equal to `"command"` and a string
`"command"`. -/
def hasHookShape (hookValue : Value) : Bool :=
  match hookValue with
  | Value.arr [Value.obj firstElement] =>
    match mapGet firstElement "hooks" with
    | some (Value.arr [Value.obj hookConfig]) =>
      (match mapGet hookConfig "type" with
       | some (Value.str t) => decide (t = "command")
       | _ => false) &&
      (match mapGet hookConfig "command" with
       | some (Value.str _) => true
       | _ => false)
    | _ => false
  | _ => false

/-! ## The settings merge -/

/-- The result of running Go code that can panic. -/
inductive Run (α : Type) where
  | done (a : α)
  | panic (msg : String)

/-- `settingsPath` constant. -/
def settingsPath : String := ".claude/settings.json"

/-- `json.Unmarshal(data, &target)` for a target of type `map[string]interface{}`, given the
decoder of JSON text into `interface{}`: a syntax error is returned, the literal `null` sets the
map to `nil`, an object is stored key by key into the map, and every other JSON value is a type
error. -/
def jsonUnmarshal (decode : String → Except String Value) (data : String)
    (target : List (String × Value)) : Except String (Option (List (String × Value))) :=
  match decode data with
  | Except.error e => Except.error e
  | Except.ok Value.null => Except.ok none
  | Except.ok (Value.obj kvs) =>
    Except.ok (some (kvs.foldl (fun m kv => mapSet m kv.1 kv.2) target))
  | Except.ok (Value.bool _) =>
    Except.error "json: cannot unmarshal bool into Go value of type map[string]interface \x7b\x7d"
  | Except.ok (Value.num _) =>
    Except.error "json: cannot unmarshal number into Go value of type map[string]interface \x7b\x7d"
  | Except.ok (Value.str _) =>
    Except.error "json: cannot unmarshal string into Go value of type map[string]interface \x7b\x7d"
  | Except.ok (Value.arr _) =>
    Except.error "json: cannot unmarshal array into Go value of type map[string]interface \x7b\x7d"

/-- Lines 361 to 381 of `applyConfiguration`: generate the new sound hooks, locate the `"hooks"`
map of the decoded settings (a fresh map when absent or of another type), delete the managed
names, insert the generated entries and store the map back under `"hooks"`.  The store panics
when the settings map is `nil`. -/
def mergeHooks (p : Platform) (audioPlayer : String) (suite : SoundSuite)
    (existingSettings : Option (List (String × Value))) : Run (List (String × Value)) :=
  let newSoundHooks := generateHooks p audioPlayer suite
  let existingHooks : List (String × Value) :=
    match existingSettings.bind (fun m => mapGet m "hooks") with
    | some (Value.obj h) => h
    | _ => []
  let existingHooks := soundHooks.foldl mapDelete existingHooks
  let existingHooks := newSoundHooks.foldl (fun m kv => mapSet m kv.1 kv.2) existingHooks
  match existingSettings with
  | none => Run.panic "assignment to entry in nil map"
  | some m => Run.done (mapSet m "hooks" (Value.obj existingHooks))

/-- The hooks map `mergeHooks` stores: the old one without the managed names, then the generated
entries. -/
def mergedHooks (p : Platform) (audioPlayer : String) (suite : SoundSuite)
    (old : List (String × Value)) : List (String × Value) :=
  (generateHooks p audioPlayer suite).foldl (fun m kv => mapSet m kv.1 kv.2)
    (soundHooks.foldl mapDelete old)

/-- The hooks map `mergeHooks` starts from. -/
def hooksOf (m : List (String × Value)) : List (String × Value) :=
  match mapGet m "hooks" with
  | some (Value.obj h) => h
  | _ => []

/-! ## The file system and `applyConfiguration` -/

/-- The files of the machine: path to content, `none` where no file exists. -/
abbrev FS := String → Option String

/-- Store `data` at `path`. -/
def fsWrite (fs : FS) (path data : String) : FS :=
  fun q => if q = path then some data else fs q

/-- The calls the program makes on the machine, as they are logged: `os.Create` made the file
`path`; `io.Copy` wrote `written` into `path`; `os.MkdirAll` was called on `path`;
`os.WriteFile` was called on `path` with `data`; the process `name arg` was started. -/
inductive Effect where
  | create (path : String)
  | copy (path : String) (written : String)
  | mkdirAll (path : String)
  | writeFile (path : String) (data : String)
  | start (name : String) (arg : String)
  deriving DecidableEq, Repr

/-- The result of a call that touches the machine: the files afterwards, the calls made in
order, and the returned value. -/
structure Exec (α : Type) where
  fs : FS
  effects : List Effect
  result : α

/-- Everything the operating system and the libraries decide: `os.UserHomeDir`, the formatted
`time.Now()` of the backup name, whether `os.Stat` fails with an error other than
`IsNotExist`, whether `os.Open`, `os.Create`, `io.Copy` (after how many characters),
`os.MkdirAll` and `os.WriteFile` (before opening, or after how many characters) fail, the JSON
decoder and encoder, and the two clock readings of a preview. -/
structure Env extends Platform where
  userHomeDir : Except String String
  timestamp : String
  statErr : Option String
  openErr : Option String
  createErr : Option String
  copyErr : Option (Nat × String)
  decode : String → Except String Value
  marshalIndent : List (String × Value) → Except String String
  mkdirAllErr : Option String
  writeFileErr : Option (Option Nat × String)
  now : Nat
  nowAgain : Nat

/-- The external messages and the list widget of the terminal library: `tea.KeyMsg` is its
`String()`, `tea.WindowSizeMsg` its two sizes. -/
inductive Msg where
  | windowSize (width height : Int)
  | key (keypress : String)
  | other (tag : Nat)

/-- A `tea.Cmd`: `nil`, `tea.Quit`, or a command of the list widget. -/
inductive Cmd where
  | nil
  | quit
  | other (tag : Nat)
  deriving DecidableEq, Repr

/-- The operations of `list.Model` the program calls. -/
structure ListOps (L : Type) where
  setWidth : L → Int → L
  selectedItem : L → Option SoundSuite
  update : L → Msg → L × Cmd

/-- Model represents the application state. -/
structure Model (L : Type) where
  list : L
  suites : List SoundSuite
  audioPlayer : String
  repoPath : String
  choice : String
  quitting : Bool
  confirming : Bool
  selectedSuite : Option SoundSuite
  err : Option String
  success : Bool
  lastPreview : String
  previewCooldown : Nat

/-- The path of the settings file `applyConfiguration` computes from the home directory. -/
def settingsFileOf (env : Env) (homeDir : String) : String :=
  env.join homeDir settingsPath

/-- The name `backupSettings` gives the backup of `settingsFile`. -/
def backupFileOf (env : Env) (settingsFile : String) : String :=
  settingsFile ++ ".backup_" ++ env.timestamp

/-- `backupSettings` creates a timestamped backup of the settings file. `os.Stat` answers
`IsNotExist`, and the function returns `nil`, when there is no file and the call fails in no
other way; after any other answer the code goes on to `os.Open`, which fails when there is no
file to open. -/
def backupSettings (env : Env) (settingsFile : String) (fs : FS) : Exec (Option String) :=
  match env.statErr, fs settingsFile with
  | none, none => { fs := fs, effects := [], result := none }
  | some e, none => { fs := fs, effects := [], result := some (env.openErr.getD e) }
  | _, some content =>
    let backupFile := backupFileOf env settingsFile
    match env.openErr with
    | some e => { fs := fs, effects := [], result := some e }
    | none =>
      match env.createErr with
      | some e => { fs := fs, effects := [], result := some e }
      | none =>
        let fs := fsWrite fs backupFile ""
        match env.copyErr with
        | some (n, e) =>
          { fs := fsWrite fs backupFile (content.take n),
            effects := [Effect.create backupFile, Effect.copy backupFile (content.take n)],
            result := some e }
        | none =>
          { fs := fsWrite fs backupFile content,
            effects := [Effect.create backupFile, Effect.copy backupFile content],
            result := none }

/-- `applyConfiguration` updates the Claude Code settings with the selected sound suite.
`os.ReadFile` is reached only after `backupSettings` has opened the same file or found none, so
it returns the content of the file when there is one and an error when there is none. -/
def applyConfiguration {L : Type} (env : Env) (m : Model L) (suite : SoundSuite) (fs : FS) :
    Exec (Run (Option String)) :=
  match env.userHomeDir with
  | Except.error e =>
    { fs := fs, effects := [], result := Run.done (some ("failed to get home directory: " ++ e)) }
  | Except.ok homeDir =>
    let settingsFile := settingsFileOf env homeDir
    let b := backupSettings env settingsFile fs
    match b.result with
    | some e =>
      { fs := b.fs, effects := b.effects,
        result := Run.done (some ("failed to create backup: " ++ e)) }
    | none =>
      let parsed : Except String (Option (List (String × Value))) :=
        match b.fs settingsFile with
        | some data => jsonUnmarshal env.decode data []
        | none => Except.ok (some [])
      match parsed with
      | Except.error e =>
        { fs := b.fs, effects := b.effects,
          result := Run.done (some ("failed to parse existing settings: " ++ e)) }
      | Except.ok existingSettings =>
        match mergeHooks env.toPlatform m.audioPlayer suite existingSettings with
        | Run.panic msg => { fs := b.fs, effects := b.effects, result := Run.panic msg }
        | Run.done merged =>
          match env.marshalIndent merged with
          | Except.error e =>
            { fs := b.fs, effects := b.effects,
              result := Run.done (some ("failed to marshal settings: " ++ e)) }
          | Except.ok data =>
            let settingsDir := env.dir settingsFile
            match env.mkdirAllErr with
            | some e =>
              { fs := b.fs, effects := b.effects ++ [Effect.mkdirAll settingsDir],
                result := Run.done (some ("failed to create settings directory: " ++ e)) }
            | none =>
              match env.writeFileErr with
              | some (none, e) =>
                { fs := b.fs,
                  effects := b.effects ++ [Effect.mkdirAll settingsDir,
                    Effect.writeFile settingsFile data],
                  result := Run.done (some ("failed to write settings: " ++ e)) }
              | some (some n, e) =>
                { fs := fsWrite b.fs settingsFile (data.take n),
                  effects := b.effects ++ [Effect.mkdirAll settingsDir,
                    Effect.writeFile settingsFile data],
                  result := Run.done (some ("failed to write settings: " ++ e)) }
              | none =>
                { fs := fsWrite b.fs settingsFile data,
                  effects := b.effects ++ [Effect.mkdirAll settingsDir,
                    Effect.writeFile settingsFile data],
                  result := Run.done none }

/-! ## The selection state machine -/

/-- The machine between two messages: the files and every call made so far. -/
structure World where
  fs : FS
  trace : List Effect

/-- `playPreview` plays a preview sound from the suite: the player is started on the preview
file and not waited for. -/
def playPreview {L : Type} (p : Platform) (m : Model L) (suite : SoundSuite) : List Effect :=
  let previewPath := p.join suite.Path suite.PreviewFile
  [Effect.start m.audioPlayer previewPath]

/-- The last two lines of `Update`: the message goes to the list widget. -/
def listUpdate {L : Type} (ui : ListOps L) (m : Model L) (msg : Msg) : Model L × Cmd :=
  let r := ui.update m.list msg
  ({ m with list := r.1 }, r.2)

/-- `Update` of the model: one message is handled, the machine may change, and the call returns
the next model with a command, or panics when `applyConfiguration` does. -/
def Update {L : Type} (env : Env) (ui : ListOps L) (m : Model L) (msg : Msg) (w : World) :
    World × Run (Model L × Cmd) :=
  match msg with
  | Msg.windowSize width _ =>
    (w, Run.done ({ m with list := ui.setWidth m.list width }, Cmd.nil))
  | Msg.key keypress =>
    if m.confirming then
      if keypress = "y" ∨ keypress = "Y" then
        match m.selectedSuite with
        | some suite =>
          let m := { m with choice := suite.Name }
          let r := applyConfiguration env m suite w.fs
          let w := { fs := r.fs, trace := w.trace ++ r.effects }
          match r.result with
          | Run.panic msg => (w, Run.panic msg)
          | Run.done (some err) =>
            (w, Run.done ({ m with err := some err, success := false, quitting := true }, Cmd.quit))
          | Run.done none =>
            (w, Run.done ({ m with success := true, quitting := true }, Cmd.quit))
        | none => (w, Run.done (m, Cmd.nil))
      else if keypress = "n" ∨ keypress = "N" ∨ keypress = "esc" then
        (w, Run.done ({ m with confirming := false, selectedSuite := none }, Cmd.nil))
      else
        (w, Run.done (m, Cmd.nil))
    else if keypress = "ctrl+c" ∨ keypress = "q" then
      (w, Run.done ({ m with quitting := true }, Cmd.quit))
    else if keypress = "enter" then
      match ui.selectedItem m.list with
      | some i => (w, Run.done ({ m with confirming := true, selectedSuite := some i }, Cmd.nil))
      | none => (w, Run.done (listUpdate ui m msg))
    else if keypress = "p" ∨ keypress = " " then
      match ui.selectedItem m.list with
      | some i =>
        if env.now > m.previewCooldown then
          let m := { m with lastPreview := i.Name, previewCooldown := env.nowAgain + 1000000000 }
          ({ w with trace := w.trace ++ playPreview env.toPlatform m i },
            Run.done (listUpdate ui m msg))
        else
          (w, Run.done (listUpdate ui m msg))
      | none => (w, Run.done (listUpdate ui m msg))
    else
      (w, Run.done (listUpdate ui m msg))
  | Msg.other _ => (w, Run.done (listUpdate ui m msg))

/-! ## The data of the tests -/

/-- A Unix platform for the examples: `filepath.Join` of a clean directory and a plain file name
puts one slash between them, `filepath.Dir` of a clean path drops its last element. -/
def unixPlatform : Platform :=
  { goos := "linux",
    join := fun a b => a ++ "/" ++ b,
    dir := fun path =>
      String.mk (((path.toList.reverse.dropWhile (fun c => decide (c ≠ '/'))).drop 1).reverse) }

/-- The suite `testSuite` of `TestHookStructure`. -/
def testSuite : SoundSuite :=
  { Name := "Test Suite", Desc := "", Path := "/test/path", PreviewFile := "" }

/-- The old `"PreToolUse"` value of `TestPreservesExistingHooks`. -/
def oldPreToolUse : Value :=
  Value.arr [Value.obj [("hooks", Value.arr [Value.obj
    [ ("type", Value.str "command"),
      ("command", Value.str "/custom/hook.py"),
      ("name", Value.str "custom-hook") ]])]]

/-- The `"CustomHook"` value of `TestPreservesExistingHooks`. -/
def customHook : Value :=
  Value.arr [Value.obj [("hooks", Value.arr [Value.obj
    [ ("type", Value.str "command"),
      ("command", Value.str "echo \x27custom\x27") ]])]]

/-- The ten external hook names: the second components of `soundHookMapping`, the keys
`TestPreservesExistingHooks` deletes and `TestHookStructure` looks up. -/
def externalHookNames : List String := soundHookMapping.map Prod.snd

/-- A settings document with a top-level key of its own and, in `"hooks"`, a user entry under
`"tool_start"` beside the one under `"CustomHook"`. -/
def ownToolStart : List (String × Value) :=
  [ ("theme", Value.str "dark"),
    ("hooks", Value.obj [("tool_start", customHook), ("CustomHook", customHook)]) ]

/-- The document `initialSettings` of `TestPreservesExistingHooks`. -/
def initialSettings : List (String × Value) :=
  [ ("hooks", Value.obj [("PreToolUse", oldPreToolUse), ("CustomHook", customHook)]) ]

/-- A JSON decoder for the examples: it reads the texts `null`, `true`, `false`, the empty
object and the empty array, and rejects every other text, among them the malformed text the
examples use. -/
def decodeLiteral (data : String) : Except String Value :=
  if data = "null" then Except.ok Value.null
  else if data = "true" then Except.ok (Value.bool true)
  else if data = "false" then Except.ok (Value.bool false)
  else if data = "\x7b\x7d" then Except.ok (Value.obj [])
  else if data = "[]" then Except.ok (Value.arr [])
  else Except.error "invalid character"

/-- A stand-in for the JSON encoder in the examples: it lists the top-level keys only. -/
def encodeKeys (doc : List (String × Value)) : Except String String :=
  Except.ok ("keys: " ++ ", ".intercalate (mapKeys doc))

/-- An environment in which no system call fails. -/
def exampleEnv : Env :=
  { toPlatform := unixPlatform,
    userHomeDir := Except.ok "/home/user",
    timestamp := "20240102_030405",
    statErr := none,
    openErr := none,
    createErr := none,
    copyErr := none,
    decode := decodeLiteral,
    marshalIndent := encodeKeys,
    mkdirAllErr := none,
    writeFileErr := none,
    now := 5000000000,
    nowAgain := 5000000001 }

/-- The model `main` builds, with the audio player of the tests and a list widget without
state. -/
def exampleModel : Model Unit :=
  { list := (),
    suites := [testSuite],
    audioPlayer := "afplay",
    repoPath := "/test/path",
    choice := "",
    quitting := false,
    confirming := false,
    selectedSuite := none,
    err := none,
    success := false,
    lastPreview := "",
    previewCooldown := 0 }

/-- A machine whose only file is the settings file, with the given content. -/
def settingsOnly (content : String) : FS :=
  fsWrite (fun _ => none) "/home/user/.claude/settings.json" content

/-- A list widget without state whose selected item is the suite of the tests. -/
def exampleList : ListOps Unit :=
  { setWidth := fun l _ => l,
    selectedItem := fun _ => some testSuite,
    update := fun l _ => (l, Cmd.nil) }

/-- The model after `enter` on the suite of the tests: confirming, nothing applied yet. -/
def confirmingModel : Model Unit :=
  { exampleModel with confirming := true, selectedSuite := some testSuite }

/-- A machine whose settings file holds a malformed text, before any call. -/
def brokenSettings : World :=
  { fs := settingsOnly "\x7b broken", trace := [] }

/-- The model after a confirm that ended in the parse failure: `Done(error)`. -/
def failedModel : Model Unit :=
  { confirmingModel with
    choice := "Test Suite",
    err := some "failed to parse existing settings: invalid character",
    quitting := true }

/-- The model after `q` in the list: `Cancelled`. -/
def cancelledModel : Model Unit :=
  { exampleModel with quitting := true }

/-! ## Lemmas on maps -/

theorem mapGet_mapSet_self {α : Type} (m : List (String × α)) (k : String) (v : α) :
    mapGet (mapSet m k v) k = some v := by
  induction m with
  | nil => simp [mapSet, mapGet]
  | cons kv rest ih =>
    obtain ⟨k', v'⟩ := kv
    by_cases h : k' = k
    · simp [mapSet, mapGet, h]
    · simp [mapSet, mapGet, h, ih]

theorem mapGet_mapSet_ne {α : Type} (m : List (String × α)) (k k' : String) (v : α)
    (h : k' ≠ k) : mapGet (mapSet m k v) k' = mapGet m k' := by
  induction m with
  | nil => simp [mapSet, mapGet, Ne.symm h]
  | cons kv rest ih =>
    obtain ⟨k0, v0⟩ := kv
    by_cases h0 : k0 = k
    · subst h0
      simp [mapSet, mapGet, Ne.symm h]
    · by_cases h1 : k0 = k'
      · subst h1
        simp [mapSet, mapGet, h0]
      · simp [mapSet, mapGet, h0, h1, ih]

theorem mapDelete_cons {α : Type} (kv : String × α) (rest : List (String × α)) (k : String) :
    mapDelete (kv :: rest) k = if kv.1 = k then mapDelete rest k else kv :: mapDelete rest k := by
  by_cases h : kv.1 = k <;> simp [mapDelete, List.filter_cons, h]

theorem mapGet_mapDelete_ne {α : Type} (m : List (String × α)) (k k' : String)
    (h : k' ≠ k) : mapGet (mapDelete m k) k' = mapGet m k' := by
  induction m with
  | nil => simp [mapDelete, mapGet]
  | cons kv rest ih =>
    obtain ⟨k0, v0⟩ := kv
    rw [mapDelete_cons]
    by_cases h0 : k0 = k
    · subst h0
      simp [mapGet, Ne.symm h, ih]
    · by_cases h1 : k0 = k'
      · subst h1
        simp [mapGet, h0]
      · simp [mapGet, h0, h1, ih]

theorem mapGet_foldl_mapDelete {α : Type} (ks : List String) (m : List (String × α))
    (k : String) (h : k ∉ ks) : mapGet (ks.foldl mapDelete m) k = mapGet m k := by
  induction ks generalizing m with
  | nil => rfl
  | cons k0 ks ih =>
    simp only [List.mem_cons, not_or] at h
    simp only [List.foldl_cons]
    rw [ih _ h.2, mapGet_mapDelete_ne _ _ _ h.1]

theorem mapGet_foldl_mapSet_of_not_mem {α : Type} (g : List (String × α))
    (m : List (String × α)) (k : String) (h : k ∉ mapKeys g) :
    mapGet (g.foldl (fun m kv => mapSet m kv.1 kv.2) m) k = mapGet m k := by
  induction g generalizing m with
  | nil => rfl
  | cons kv g ih =>
    simp only [mapKeys, List.map_cons, List.mem_cons, not_or] at h
    simp only [List.foldl_cons]
    rw [ih _ h.2, mapGet_mapSet_ne _ _ _ _ h.1]

theorem generateHooks_eq (p : Platform) (audioPlayer : String) (suite : SoundSuite) :
    generateHooks p audioPlayer suite
      = soundHooks.map (fun h => (h, hookEntry p audioPlayer suite h)) := rfl

theorem mapKeys_generateHooks (p : Platform) (audioPlayer : String) (suite : SoundSuite) :
    mapKeys (generateHooks p audioPlayer suite) = soundHooks := rfl

theorem mergeHooks_some (p : Platform) (audioPlayer : String) (suite : SoundSuite)
    (m : List (String × Value)) :
    mergeHooks p audioPlayer suite (some m)
      = Run.done (mapSet m "hooks" (Value.obj (mergedHooks p audioPlayer suite (hooksOf m)))) := by
  simp only [mergeHooks, mergedHooks, hooksOf, Option.bind]

theorem mapGet_mergedHooks_of_not_mem (p : Platform) (audioPlayer : String) (suite : SoundSuite)
    (old : List (String × Value)) (k : String) (h : k ∉ soundHooks) :
    mapGet (mergedHooks p audioPlayer suite old) k = mapGet old k := by
  unfold mergedHooks
  rw [mapGet_foldl_mapSet_of_not_mem _ _ _ (by rw [mapKeys_generateHooks]; exact h),
    mapGet_foldl_mapDelete _ _ _ h]

theorem mapSet_mapSet {α : Type} (m : List (String × α)) (k : String) (v v' : α) :
    mapSet (mapSet m k v) k v' = mapSet m k v' := by
  induction m with
  | nil => simp [mapSet]
  | cons kv rest ih =>
    obtain ⟨k0, v0⟩ := kv
    by_cases h0 : k0 = k
    · subst h0
      simp [mapSet]
    · simp [mapSet, h0, ih]

theorem mapSet_of_not_mem {α : Type} (m : List (String × α)) (k : String) (v : α)
    (h : k ∉ mapKeys m) : mapSet m k v = m ++ [(k, v)] := by
  induction m with
  | nil => rfl
  | cons kv rest ih =>
    obtain ⟨k0, v0⟩ := kv
    simp only [mapKeys, List.map_cons, List.mem_cons, not_or] at h
    have h0 : ¬ k0 = k := fun e => h.1 e.symm
    simp only [mapSet, h0, if_false, List.cons_append]
    rw [ih h.2]

theorem foldl_mapSet_append {α : Type} (g m : List (String × α))
    (hnd : (mapKeys g).Nodup) (hdis : ∀ k ∈ mapKeys g, k ∉ mapKeys m) :
    g.foldl (fun m kv => mapSet m kv.1 kv.2) m = m ++ g := by
  induction g generalizing m with
  | nil => simp
  | cons kv g ih =>
    obtain ⟨k0, v0⟩ := kv
    simp only [mapKeys, List.map_cons, List.nodup_cons] at hnd
    have hk0 : k0 ∉ mapKeys m := hdis k0 (by simp [mapKeys])
    simp only [List.foldl_cons]
    rw [mapSet_of_not_mem m k0 v0 hk0, ih _ hnd.2]
    · simp
    · intro k hk
      have hkm : k ∉ mapKeys m := hdis k (by simp only [mapKeys, List.map_cons, List.mem_cons]; exact Or.inr hk)
      simp only [mapKeys, List.map_append, List.map_cons, List.map_nil, List.mem_append,
        List.mem_singleton, not_or]
      refine ⟨hkm, ?_⟩
      intro e
      subst e
      exact hnd.1 hk

theorem foldl_mapDelete_eq_filter {α : Type} (ks : List String) (m : List (String × α)) :
    ks.foldl mapDelete m = m.filter (fun kv => decide (kv.1 ∉ ks)) := by
  induction ks generalizing m with
  | nil => simp
  | cons k ks ih =>
    simp only [List.foldl_cons]
    rw [ih, mapDelete, List.filter_filter]
    congr 1
    funext kv
    simp only [List.mem_cons, not_or, ne_eq, Bool.decide_and, Bool.and_comm]

theorem not_mem_mapKeys_filter {α : Type} (ks : List String) (m : List (String × α))
    (k : String) (hk : k ∈ ks) :
    k ∉ mapKeys (m.filter (fun kv => decide (kv.1 ∉ ks))) := by
  simp only [mapKeys, List.mem_map, List.mem_filter, decide_eq_true_eq, not_exists, not_and]
  rintro ⟨k0, v0⟩ ⟨-, hnot⟩ e
  simp only at e hnot
  subst e
  exact hnot hk

theorem filter_generateHooks (p : Platform) (audioPlayer : String) (suite : SoundSuite) :
    (generateHooks p audioPlayer suite).filter (fun kv => decide (kv.1 ∉ soundHooks)) = [] := by
  rw [List.filter_eq_nil_iff]
  intro kv hkv
  have : kv.1 ∈ mapKeys (generateHooks p audioPlayer suite) := List.mem_map_of_mem _ hkv
  rw [mapKeys_generateHooks] at this
  simp [this]

theorem soundHooks_nodup : soundHooks.Nodup := by decide

theorem mergedHooks_eq (p : Platform) (audioPlayer : String) (suite : SoundSuite)
    (old : List (String × Value)) :
    mergedHooks p audioPlayer suite old
      = old.filter (fun kv => decide (kv.1 ∉ soundHooks)) ++ generateHooks p audioPlayer suite := by
  unfold mergedHooks
  rw [foldl_mapDelete_eq_filter]
  apply foldl_mapSet_append
  · rw [mapKeys_generateHooks]; exact soundHooks_nodup
  · intro k hk
    rw [mapKeys_generateHooks] at hk
    exact not_mem_mapKeys_filter _ _ _ hk

theorem mergedHooks_idem (p : Platform) (audioPlayer : String) (suite : SoundSuite)
    (old : List (String × Value)) :
    mergedHooks p audioPlayer suite (mergedHooks p audioPlayer suite old)
      = mergedHooks p audioPlayer suite old := by
  rw [mergedHooks_eq p audioPlayer suite (mergedHooks p audioPlayer suite old),
    mergedHooks_eq p audioPlayer suite old, List.filter_append, filter_generateHooks,
    List.filter_filter]
  simp

theorem hooksOf_mapSet (m h : List (String × Value)) :
    hooksOf (mapSet m "hooks" (Value.obj h)) = h := by
  simp [hooksOf, mapGet_mapSet_self]

theorem mapGet_append_of_not_mem {α : Type} (m g : List (String × α)) (k : String)
    (h : k ∉ mapKeys m) : mapGet (m ++ g) k = mapGet g k := by
  induction m with
  | nil => rfl
  | cons kv rest ih =>
    obtain ⟨k0, v0⟩ := kv
    simp only [mapKeys, List.map_cons, List.mem_cons, not_or] at h
    have h0 : ¬ k0 = k := fun e => h.1 e.symm
    simp only [List.cons_append, mapGet, h0, if_false]
    exact ih h.2

theorem mapGet_map_of_mem {α : Type} (f : String → α) (ks : List String) (k : String)
    (h : k ∈ ks) : mapGet (ks.map (fun x => (x, f x))) k = some (f k) := by
  induction ks with
  | nil => cases h
  | cons k0 ks ih =>
    by_cases h0 : k0 = k
    · subst h0
      simp [mapGet]
    · have hk : k ∈ ks := by
        rcases List.mem_cons.mp h with e | e
        · exact absurd e.symm h0
        · exact e
      simp [mapGet, h0, ih hk]

theorem mapGet_generateHooks (p : Platform) (audioPlayer : String) (suite : SoundSuite)
    (k : String) (h : k ∈ soundHooks) :
    mapGet (generateHooks p audioPlayer suite) k = some (hookEntry p audioPlayer suite k) := by
  rw [generateHooks_eq]
  exact mapGet_map_of_mem _ _ _ h

theorem mapGet_mergedHooks_of_mem (p : Platform) (audioPlayer : String) (suite : SoundSuite)
    (old : List (String × Value)) (k : String) (h : k ∈ soundHooks) :
    mapGet (mergedHooks p audioPlayer suite old) k = some (hookEntry p audioPlayer suite k) := by
  rw [mergedHooks_eq, mapGet_append_of_not_mem _ _ _ (not_mem_mapKeys_filter _ _ _ h)]
  exact mapGet_generateHooks p audioPlayer suite k h

/-! ## Lemmas on `backupSettings` and `applyConfiguration` -/

/-- The backup never has the name of the settings file. -/
theorem backupFileOf_ne (env : Env) (settingsFile : String) :
    backupFileOf env settingsFile ≠ settingsFile := by
  intro h
  have hl := congrArg String.length h
  simp only [backupFileOf, String.length_append] at hl
  have : (".backup_" : String).length = 8 := by decide
  omega

theorem backupSettings_fs_same (env : Env) (settingsFile : String) (fs : FS) (q : String)
    (hq : q ≠ backupFileOf env settingsFile) :
    (backupSettings env settingsFile fs).fs q = fs q := by
  unfold backupSettings
  split
  · rfl
  · rfl
  · split
    · rfl
    · split
      · rfl
      · split <;> simp [fsWrite, hq]

theorem backupSettings_absent (env : Env) (settingsFile : String) (fs : FS)
    (h : fs settingsFile = none) :
    (backupSettings env settingsFile fs).fs = fs ∧
    (backupSettings env settingsFile fs).effects = [] ∧
    (env.statErr = none → (backupSettings env settingsFile fs).result = none) ∧
    (∀ e, env.statErr = some e →
      (backupSettings env settingsFile fs).result = some (env.openErr.getD e)) := by
  unfold backupSettings
  cases hs : env.statErr <;> simp [h]

theorem backupSettings_ok (env : Env) (settingsFile : String) (fs : FS) (orig : String)
    (h : fs settingsFile = some orig)
    (hr : (backupSettings env settingsFile fs).result = none) :
    (backupSettings env settingsFile fs).effects
      = [Effect.create (backupFileOf env settingsFile),
         Effect.copy (backupFileOf env settingsFile) orig] ∧
    (backupSettings env settingsFile fs).fs (backupFileOf env settingsFile) = some orig := by
  have hcore : ∀ b : Exec (Option String),
      b = (match env.openErr with
        | some e => { fs := fs, effects := [], result := some e }
        | none =>
          match env.createErr with
          | some e => { fs := fs, effects := [], result := some e }
          | none =>
            match env.copyErr with
            | some (n, e) =>
              { fs := fsWrite (fsWrite fs (backupFileOf env settingsFile) "")
                  (backupFileOf env settingsFile) (orig.take n),
                effects := [Effect.create (backupFileOf env settingsFile),
                  Effect.copy (backupFileOf env settingsFile) (orig.take n)],
                result := some e }
            | none =>
              { fs := fsWrite (fsWrite fs (backupFileOf env settingsFile) "")
                  (backupFileOf env settingsFile) orig,
                effects := [Effect.create (backupFileOf env settingsFile),
                  Effect.copy (backupFileOf env settingsFile) orig],
                result := none }) →
      b.result = none →
      b.effects = [Effect.create (backupFileOf env settingsFile),
         Effect.copy (backupFileOf env settingsFile) orig] ∧
      b.fs (backupFileOf env settingsFile) = some orig := by
    intro b hb hres
    subst hb
    split at hres
    · simp at hres
    · split at hres
      · simp at hres
      · split at hres
        · simp at hres
        · simp_all [fsWrite]
  apply hcore _ _ hr
  unfold backupSettings
  cases hs : env.statErr <;> simp only [h]

theorem backupSettings_no_write (env : Env) (settingsFile : String) (fs : FS)
    (path data : String) :
    Effect.writeFile path data ∉ (backupSettings env settingsFile fs).effects := by
  unfold backupSettings
  split
  · simp
  · simp
  · split
    · simp
    · split
      · simp
      · split <;> simp

/-- The calls `applyConfiguration` makes after the backup: none, the directory, or the directory
and the write. -/
theorem applyConfiguration_shape {L : Type} (env : Env) (m : Model L) (suite : SoundSuite)
    (fs : FS) (homeDir : String) (hhome : env.userHomeDir = Except.ok homeDir) :
    ∃ tail,
      (applyConfiguration env m suite fs).effects
        = (backupSettings env (settingsFileOf env homeDir) fs).effects ++ tail ∧
      (tail = [] ∨ tail = [Effect.mkdirAll (env.dir (settingsFileOf env homeDir))] ∨
        ∃ data, tail = [Effect.mkdirAll (env.dir (settingsFileOf env homeDir)),
          Effect.writeFile (settingsFileOf env homeDir) data]) ∧
      (∀ q, q ≠ settingsFileOf env homeDir →
        (applyConfiguration env m suite fs).fs q
          = (backupSettings env (settingsFileOf env homeDir) fs).fs q) ∧
      (∀ e, (backupSettings env (settingsFileOf env homeDir) fs).result = some e →
        tail = [] ∧
        (applyConfiguration env m suite fs).result
          = Run.done (some ("failed to create backup: " ++ e)) ∧
        (applyConfiguration env m suite fs).fs
          = (backupSettings env (settingsFileOf env homeDir) fs).fs) := by
  unfold applyConfiguration
  simp only [hhome]
  split
  · rename_i e he
    exact ⟨[], by simp, Or.inl rfl, fun _ _ => rfl, fun e' he' => by simp_all⟩
  · rename_i hb
    split
    · exact ⟨[], by simp, Or.inl rfl, fun _ _ => rfl, fun e' he' => by simp_all⟩
    · split
      · exact ⟨[], by simp, Or.inl rfl, fun _ _ => rfl, fun e' he' => by simp_all⟩
      · split
        · exact ⟨[], by simp, Or.inl rfl, fun _ _ => rfl, fun e' he' => by simp_all⟩
        · split
          · exact ⟨_, rfl, Or.inr (Or.inl rfl), fun _ _ => rfl, fun e' he' => by simp_all⟩
          · split
            · exact ⟨_, rfl, Or.inr (Or.inr ⟨_, rfl⟩), fun _ _ => rfl, fun e' he' => by simp_all⟩
            · exact ⟨_, rfl, Or.inr (Or.inr ⟨_, rfl⟩), fun q hq => by simp [fsWrite, hq],
                fun e' he' => by simp_all⟩
            · exact ⟨_, rfl, Or.inr (Or.inr ⟨_, rfl⟩), fun q hq => by simp [fsWrite, hq],
                fun e' he' => by simp_all⟩

/-- Past a successful backup, a content `json.Unmarshal` rejects ends the call with the parse
failure, the files and the calls being those of the backup. -/
theorem applyConfiguration_parse_error {L : Type} (env : Env) (m : Model L) (suite : SoundSuite)
    (fs : FS) (homeDir data e : String) (hhome : env.userHomeDir = Except.ok homeDir)
    (hb : (backupSettings env (settingsFileOf env homeDir) fs).result = none)
    (hfile : fs (settingsFileOf env homeDir) = some data)
    (hparse : jsonUnmarshal env.decode data [] = Except.error e) :
    applyConfiguration env m suite fs
      = { fs := (backupSettings env (settingsFileOf env homeDir) fs).fs,
          effects := (backupSettings env (settingsFileOf env homeDir) fs).effects,
          result := Run.done (some ("failed to parse existing settings: " ++ e)) } := by
  have hread : (backupSettings env (settingsFileOf env homeDir) fs).fs (settingsFileOf env homeDir)
      = some data := by
    rw [backupSettings_fs_same _ _ _ _ (backupFileOf_ne env _).symm, hfile]
  unfold applyConfiguration
  simp only [hhome, hb, hread, hparse]

/-- Past a successful backup, a content `json.Unmarshal` turns into the `nil` map ends the call
with a panic, for every environment. -/
theorem applyConfiguration_nil_map {L : Type} (env : Env) (m : Model L) (suite : SoundSuite)
    (fs : FS) (homeDir data : String) (hhome : env.userHomeDir = Except.ok homeDir)
    (hb : (backupSettings env (settingsFileOf env homeDir) fs).result = none)
    (hfile : fs (settingsFileOf env homeDir) = some data)
    (hparse : jsonUnmarshal env.decode data [] = Except.ok none) :
    applyConfiguration env m suite fs
      = { fs := (backupSettings env (settingsFileOf env homeDir) fs).fs,
          effects := (backupSettings env (settingsFileOf env homeDir) fs).effects,
          result := Run.panic "assignment to entry in nil map" } := by
  have hread : (backupSettings env (settingsFileOf env homeDir) fs).fs (settingsFileOf env homeDir)
      = some data := by
    rw [backupSettings_fs_same _ _ _ _ (backupFileOf_ne env _).symm, hfile]
  unfold applyConfiguration
  simp only [hhome, hb, hread, hparse, mergeHooks]

/-- A text the decoder reads as JSON `null` leaves the target map `nil`, without an error. -/
theorem jsonUnmarshal_null (decode : String → Except String Value) (data : String)
    (target : List (String × Value)) (h : decode data = Except.ok Value.null) :
    jsonUnmarshal decode data target = Except.ok none := by
  simp only [jsonUnmarshal, h]

/-! ## A lemma on `Update` -/

/-- A model that has not quit carries no error: `Update` keeps it so, since it records an error
only together with `quitting`. -/
theorem Update_no_error_before_quit {L : Type} (env : Env) (ui : ListOps L) (m m' : Model L)
    (msg : Msg) (w : World) (cmd : Cmd)
    (h : (Update env ui m msg w).2 = Run.done (m', cmd))
    (hinv : m.quitting = false → m.err = none) :
    m'.quitting = false → m'.err = none := by
  cases msg with
  | windowSize width height =>
    simp only [Update, Run.done.injEq, Prod.mk.injEq] at h
    obtain ⟨rfl, -⟩ := h
    exact hinv
  | other tag =>
    simp only [Update, listUpdate, Run.done.injEq, Prod.mk.injEq] at h
    obtain ⟨rfl, -⟩ := h
    exact hinv
  | key k =>
    simp only [Update] at h
    repeat' split at h
    all_goals
      simp only [Run.done.injEq, Prod.mk.injEq, listUpdate, reduceCtorEq] at h <;>
      obtain ⟨rfl, -⟩ := h <;>
      first
        | exact hinv
        | (intro hq; simp at hq)

/-! ## Lemmas on `mergeHooks` -/

/-- The frame of the merge, relative to the names the code deletes: `mergeHooks` returns for
every settings map, a top-level key other than `"hooks"` reads the same before and after, and a
key of the old `"hooks"` map that is not in `soundHooks` reads the same in the new `"hooks"`
map. -/
theorem mergeHooks_keeps_unmanaged_keys (p : Platform) (audioPlayer : String)
    (suite : SoundSuite) (m : List (String × Value)) :
    ∃ merged h',
      mergeHooks p audioPlayer suite (some m) = Run.done merged ∧
      (∀ k, k ≠ "hooks" → mapGet merged k = mapGet m k) ∧
      mapGet merged "hooks" = some (Value.obj h') ∧
      (∀ h, mapGet m "hooks" = some (Value.obj h) →
        ∀ k, k ∉ soundHooks → mapGet h' k = mapGet h k) ∧
      "CustomHook" ∉ soundHooks := by
  refine ⟨_, _, mergeHooks_some p audioPlayer suite m, ?_, mapGet_mapSet_self _ _ _, ?_, by decide⟩
  · intro k hk
    exact mapGet_mapSet_ne _ _ _ _ hk
  · intro h hh k hk
    rw [mapGet_mergedHooks_of_not_mem _ _ _ _ _ hk]
    simp [hooksOf, hh]

/-- The merge repeats itself: `mergeHooks` returns a map for every settings map, and merging the
same suite into that result returns the very same map, whose `"hooks"` map holds the generated
entry under every name of `soundHooks` and the first document's value under every other key. -/
theorem mergeHooks_idempotent (p : Platform) (audioPlayer : String) (suite : SoundSuite)
    (m : List (String × Value)) :
    ∃ once twice h',
      mergeHooks p audioPlayer suite (some m) = Run.done once ∧
      mergeHooks p audioPlayer suite (some once) = Run.done twice ∧
      twice = once ∧
      mapGet twice "hooks" = some (Value.obj h') ∧
      (∀ k ∈ soundHooks, mapGet h' k = some (hookEntry p audioPlayer suite k)) ∧
      (∀ k, k ≠ "hooks" → mapGet twice k = mapGet m k) ∧
      (∀ h, mapGet m "hooks" = some (Value.obj h) →
        ∀ k, k ∉ soundHooks → mapGet h' k = mapGet h k) := by
  refine ⟨mapSet m "hooks" (Value.obj (mergedHooks p audioPlayer suite (hooksOf m))),
    mapSet m "hooks" (Value.obj (mergedHooks p audioPlayer suite (hooksOf m))),
    mergedHooks p audioPlayer suite (hooksOf m),
    mergeHooks_some p audioPlayer suite m, ?_, rfl, mapGet_mapSet_self _ _ _, ?_, ?_, ?_⟩
  · rw [mergeHooks_some, hooksOf_mapSet, mergedHooks_idem, mapSet_mapSet]
  · intro k hk
    exact mapGet_mergedHooks_of_mem _ _ _ _ _ hk
  · intro k hk
    exact mapGet_mapSet_ne _ _ _ _ hk
  · intro h hh k hk
    rw [mapGet_mergedHooks_of_not_mem _ _ _ _ _ hk]
    simp [hooksOf, hh]

/-! ## The claims -/

/-- C1 (evaluation of the code). No internal identifier is one of the ten external hook names,
so `"tool_start"` is not a managed name of the claim; yet on a document whose `"hooks"` map
holds a user entry under `"tool_start"`, the merge replaces that entry by the one generated for
the suite, while `"CustomHook"` and the top-level key `"theme"` read as before. -/
theorem mergeHooks_overwrites_tool_start :
    soundHooks.all (fun k => decide (k ∉ externalHookNames)) = true ∧
    "tool_start" ∉ externalHookNames ∧
    mapGet ownToolStart "hooks"
      = some (Value.obj [("tool_start", customHook), ("CustomHook", customHook)]) ∧
    ∃ merged h',
      mergeHooks unixPlatform "afplay" testSuite (some ownToolStart) = Run.done merged ∧
      mapGet merged "hooks" = some (Value.obj h') ∧
      mapGet h' "tool_start" = some (hookEntry unixPlatform "afplay" testSuite "tool_start") ∧
      customHook ≠ hookEntry unixPlatform "afplay" testSuite "tool_start" ∧
      mapGet h' "CustomHook" = some customHook ∧
      mapGet merged "theme" = some (Value.str "dark") :=
  ⟨rfl, by decide, rfl, _, _, rfl, rfl, rfl, by simp [customHook, hookEntry], rfl, rfl⟩

/-- C2 (evaluation of the code at the document of `TestPreservesExistingHooks`). After the merge
the `"hooks"` map still holds the old value under `"PreToolUse"`, which is not the entry generated
for `tool_start`; the generated entry sits under `"tool_start"`, and the keys of the map are the
two old keys followed by the ten names of `soundHooks`. -/
theorem mergeHooks_leaves_PreToolUse :
    ∃ merged h',
      mergeHooks unixPlatform "afplay" testSuite (some initialSettings) = Run.done merged ∧
      mapGet merged "hooks" = some (Value.obj h') ∧
      mapGet h' "PreToolUse" = some oldPreToolUse ∧
      oldPreToolUse ≠ hookEntry unixPlatform "afplay" testSuite "tool_start" ∧
      mapGet h' "tool_start" = some (hookEntry unixPlatform "afplay" testSuite "tool_start") ∧
      mapGet h' "SessionStart" = none ∧
      mapKeys h' = ["PreToolUse", "CustomHook"] ++ soundHooks :=
  ⟨_, _, rfl, rfl, rfl, by simp [oldPreToolUse, hookEntry], rfl, rfl, rfl⟩

/-- C3 (evaluation of the code). For every platform, audio player and suite, `generateHooks`
returns ten values and none of them passes the shape check of `TestHookStructure`: each is the
flat object with the two string fields `"command"` and `"description"`, not an array. -/
theorem generateHooks_values_are_flat (p : Platform) (audioPlayer : String) (suite : SoundSuite) :
    (generateHooks p audioPlayer suite).length = 10 ∧
    (generateHooks p audioPlayer suite).all (fun kv => !hasHookShape kv.2) = true ∧
    (generateHooks p audioPlayer suite).all (fun kv =>
      match kv.2 with
      | Value.obj [("command", Value.str _), ("description", Value.str _)] => true
      | _ => false) = true :=
  ⟨rfl, rfl, rfl⟩

/-- C4 (evaluation of the code). The table of the ten pairs is a bijection between `soundHooks`
and ten pairwise distinct external names, yet for every platform, audio player and suite the
mapping `generateHooks` returns has no entry under any external name: its entries sit under the
internal identifiers. -/
theorem generateHooks_keyed_by_internal_names (p : Platform) (audioPlayer : String)
    (suite : SoundSuite) :
    soundHookMapping.length = 10 ∧
    soundHookMapping.map Prod.fst = soundHooks ∧
    (soundHookMapping.map Prod.fst).Nodup ∧
    (soundHookMapping.map Prod.snd).Nodup ∧
    soundHookMapping.all (fun fc =>
      (mapGet (generateHooks p audioPlayer suite) fc.2).isNone &&
      (mapGet (generateHooks p audioPlayer suite) fc.1).isSome) = true ∧
    mapKeys (generateHooks p audioPlayer suite) = soundHookMapping.map Prod.fst :=
  ⟨rfl, rfl, by decide, by decide, rfl, rfl⟩

/-- C5. For every platform, audio player and suite, `generateHooks` returns exactly ten entries,
keyed by the ten names of `soundHooks` in turn (none missing, none twice, nothing else), and the
entry of hook name `h` carries a command built on the path `join suite.Path (h ++ ".wav")`: off
Windows the audio player, a space, that path and `" &"`; on Windows the PowerShell call on that
path with every slash turned into a backslash. -/
theorem generateHooks_one_entry_per_hook (p : Platform) (audioPlayer : String)
    (suite : SoundSuite) :
    (generateHooks p audioPlayer suite).length = 10 ∧
    mapKeys (generateHooks p audioPlayer suite) = soundHooks ∧
    soundHooks.Nodup ∧
    ∀ h ∈ soundHooks, ∃ command,
      mapGet (generateHooks p audioPlayer suite) h
        = some (Value.obj [("command", Value.str command),
            ("description", Value.str (getHookDescription h))]) ∧
      (p.goos ≠ "windows" →
        command = audioPlayer ++ " " ++ p.join suite.Path (h ++ ".wav") ++ " &") ∧
      (p.goos = "windows" →
        command = "powershell -c (New-Object Media.SoundPlayer \x27"
          ++ replaceAll (p.join suite.Path (h ++ ".wav")) '/' '\\' ++ "\x27).PlaySync();") := by
  refine ⟨rfl, rfl, soundHooks_nodup, ?_⟩
  intro h hh
  refine ⟨hookCommand p audioPlayer suite h, mapGet_generateHooks p audioPlayer suite h hh, ?_, ?_⟩
  · intro hw
    simp [hookCommand, hw]
  · intro hw
    simp [hookCommand, hw]

/-- C6. When the settings file exists and `json.Unmarshal` rejects its content,
`applyConfiguration` returns an error, makes no `os.WriteFile` call, and leaves the content of
the settings file as it was; the error is the parse failure whenever the backup before it
succeeded (otherwise it is the failure of the backup). -/
theorem applyConfiguration_parse_failure_keeps_file {L : Type} (env : Env) (m : Model L)
    (suite : SoundSuite) (fs : FS) (homeDir data e : String)
    (hhome : env.userHomeDir = Except.ok homeDir)
    (hfile : fs (settingsFileOf env homeDir) = some data)
    (hparse : jsonUnmarshal env.decode data [] = Except.error e) :
    (∃ msg, (applyConfiguration env m suite fs).result = Run.done (some msg)) ∧
    (∀ path d, Effect.writeFile path d ∉ (applyConfiguration env m suite fs).effects) ∧
    (applyConfiguration env m suite fs).fs (settingsFileOf env homeDir) = some data ∧
    ((backupSettings env (settingsFileOf env homeDir) fs).result = none →
      (applyConfiguration env m suite fs).result
        = Run.done (some ("failed to parse existing settings: " ++ e))) := by
  have hsame : (backupSettings env (settingsFileOf env homeDir) fs).fs (settingsFileOf env homeDir)
      = some data := by
    rw [backupSettings_fs_same _ _ _ _ (backupFileOf_ne env _).symm, hfile]
  cases hb : (backupSettings env (settingsFileOf env homeDir) fs).result with
  | none =>
    rw [applyConfiguration_parse_error env m suite fs homeDir data e hhome hb hfile hparse]
    exact ⟨⟨_, rfl⟩, fun path d => backupSettings_no_write env _ fs path d, hsame, fun _ => rfl⟩
  | some e' =>
    obtain ⟨tail, heff, -, -, hfail⟩ := applyConfiguration_shape env m suite fs homeDir hhome
    obtain ⟨htail, hres, hfs⟩ := hfail e' hb
    refine ⟨⟨_, hres⟩, ?_, ?_, fun h => by simp at h⟩
    · intro path d
      rw [heff, htail, List.append_nil]
      exact backupSettings_no_write env _ fs path d
    · rw [hfs]
      exact hsame

/-- C6 at a concrete machine: the settings file holds a malformed text, the call returns the
parse failure and the file still holds that text. -/
theorem applyConfiguration_parse_failure_keeps_file_witness :
    exampleEnv.userHomeDir = Except.ok "/home/user" ∧
    settingsOnly "\x7b broken" (settingsFileOf exampleEnv "/home/user") = some "\x7b broken" ∧
    jsonUnmarshal exampleEnv.decode "\x7b broken" [] = Except.error "invalid character" ∧
    (applyConfiguration exampleEnv exampleModel testSuite (settingsOnly "\x7b broken")).result
      = Run.done (some "failed to parse existing settings: invalid character") ∧
    (applyConfiguration exampleEnv exampleModel testSuite (settingsOnly "\x7b broken")).fs
      (settingsFileOf exampleEnv "/home/user") = some "\x7b broken" :=
  ⟨rfl, rfl, rfl,
    (applyConfiguration_parse_failure_keeps_file exampleEnv exampleModel testSuite
      (settingsOnly "\x7b broken") "/home/user" "\x7b broken" "invalid character"
      rfl rfl rfl).2.2.2 rfl,
    (applyConfiguration_parse_failure_keeps_file exampleEnv exampleModel testSuite
      (settingsOnly "\x7b broken") "/home/user" "\x7b broken" "invalid character"
      rfl rfl rfl).2.2.1⟩


/-- C7. With the home directory known: if the settings file exists with content `orig`, every
`os.WriteFile` call on the settings path comes after the creation of the backup file
`settingsFile ++ ".backup_" ++ timestamp` and the copy of `orig` into it, the backup file holds
`orig` whenever such a call was made, and when `backupSettings` fails the call returns an error,
makes no `os.WriteFile` call and leaves the settings file as it was; if no settings file exists,
no file is created or copied and the backup path is left as it was. -/
theorem applyConfiguration_backs_up_before_write {L : Type} (env : Env) (m : Model L)
    (suite : SoundSuite) (fs : FS) (homeDir : String)
    (hhome : env.userHomeDir = Except.ok homeDir) :
    (∀ orig, fs (settingsFileOf env homeDir) = some orig →
      (∀ pre data post,
        (applyConfiguration env m suite fs).effects
          = pre ++ Effect.writeFile (settingsFileOf env homeDir) data :: post →
        pre = [Effect.create (backupFileOf env (settingsFileOf env homeDir)),
               Effect.copy (backupFileOf env (settingsFileOf env homeDir)) orig,
               Effect.mkdirAll (env.dir (settingsFileOf env homeDir))]) ∧
      ((∃ data, Effect.writeFile (settingsFileOf env homeDir) data
          ∈ (applyConfiguration env m suite fs).effects) →
        (applyConfiguration env m suite fs).fs (backupFileOf env (settingsFileOf env homeDir))
          = some orig) ∧
      (∀ e, (backupSettings env (settingsFileOf env homeDir) fs).result = some e →
        (applyConfiguration env m suite fs).result
          = Run.done (some ("failed to create backup: " ++ e)) ∧
        (∀ path data, Effect.writeFile path data ∉ (applyConfiguration env m suite fs).effects) ∧
        (applyConfiguration env m suite fs).fs (settingsFileOf env homeDir) = some orig)) ∧
    (fs (settingsFileOf env homeDir) = none →
      (∀ path, Effect.create path ∉ (applyConfiguration env m suite fs).effects) ∧
      (∀ path c, Effect.copy path c ∉ (applyConfiguration env m suite fs).effects) ∧
      (applyConfiguration env m suite fs).fs (backupFileOf env (settingsFileOf env homeDir))
        = fs (backupFileOf env (settingsFileOf env homeDir))) := by
  obtain ⟨tail, heff, htail, hfs, hfail⟩ := applyConfiguration_shape env m suite fs homeDir hhome
  have hne := backupFileOf_ne env (settingsFileOf env homeDir)
  refine ⟨fun orig horig => ⟨?_, ?_, ?_⟩, fun hnone => ?_⟩
  · intro pre data post hpre
    cases hb : (backupSettings env (settingsFileOf env homeDir) fs).result with
    | some e =>
      obtain ⟨ht, -, -⟩ := hfail e hb
      have hmem : Effect.writeFile (settingsFileOf env homeDir) data
          ∈ (backupSettings env (settingsFileOf env homeDir) fs).effects := by
        have : Effect.writeFile (settingsFileOf env homeDir) data
            ∈ (applyConfiguration env m suite fs).effects := by
          rw [hpre]; simp
        rwa [heff, ht, List.append_nil] at this
      exact absurd hmem (backupSettings_no_write env _ fs _ _)
    | none =>
      obtain ⟨hbe, -⟩ := backupSettings_ok env _ fs orig horig hb
      rw [heff, hbe] at hpre
      rcases htail with ht | ht | ⟨d, ht⟩
      · subst ht
        rcases pre with _ | ⟨p0, _ | ⟨p1, _ | ⟨p2, pre⟩⟩⟩ <;> simp_all
      · subst ht
        rcases pre with _ | ⟨p0, _ | ⟨p1, _ | ⟨p2, _ | ⟨p3, pre⟩⟩⟩⟩ <;> simp_all
      · subst ht
        rcases pre with _ | ⟨p0, _ | ⟨p1, _ | ⟨p2, _ | ⟨p3, _ | ⟨p4, pre⟩⟩⟩⟩⟩ <;> simp_all
  · rintro ⟨data, hmem⟩
    cases hb : (backupSettings env (settingsFileOf env homeDir) fs).result with
    | some e =>
      obtain ⟨ht, -, -⟩ := hfail e hb
      rw [heff, ht, List.append_nil] at hmem
      exact absurd hmem (backupSettings_no_write env _ fs _ _)
    | none =>
      rw [hfs _ hne]
      exact (backupSettings_ok env _ fs orig horig hb).2
  · intro e hb
    obtain ⟨ht, hres, hfs'⟩ := hfail e hb
    refine ⟨hres, ?_, ?_⟩
    · intro path data
      rw [heff, ht, List.append_nil]
      exact backupSettings_no_write env _ fs path data
    · rw [hfs', backupSettings_fs_same _ _ _ _ hne.symm, horig]
  · obtain ⟨hbfs, hbeff, -, -⟩ := backupSettings_absent env _ fs hnone
    rw [hbeff] at heff
    rw [hbfs] at hfs
    simp only [List.nil_append] at heff
    refine ⟨?_, ?_, ?_⟩
    · intro path
      rw [heff]
      rcases htail with ht | ht | ⟨d, ht⟩ <;> simp [ht]
    · intro path c
      rw [heff]
      rcases htail with ht | ht | ⟨d, ht⟩ <;> simp [ht]
    · exact hfs _ hne


/-- C7 at two concrete machines: with a settings file holding the empty object the calls are the
creation of the backup, the copy of the old content, the directory and only then the write, and
the backup holds the old content; with no settings file nothing is created. -/
theorem applyConfiguration_backs_up_before_write_witness :
    exampleEnv.userHomeDir = Except.ok "/home/user" ∧
    settingsOnly "\x7b\x7d" (settingsFileOf exampleEnv "/home/user") = some "\x7b\x7d" ∧
    (applyConfiguration exampleEnv exampleModel testSuite (settingsOnly "\x7b\x7d")).effects
      = [ Effect.create "/home/user/.claude/settings.json.backup_20240102_030405",
          Effect.copy "/home/user/.claude/settings.json.backup_20240102_030405" "\x7b\x7d",
          Effect.mkdirAll "/home/user/.claude",
          Effect.writeFile "/home/user/.claude/settings.json" "keys: hooks" ] ∧
    (applyConfiguration exampleEnv exampleModel testSuite (settingsOnly "\x7b\x7d")).fs
      (backupFileOf exampleEnv (settingsFileOf exampleEnv "/home/user")) = some "\x7b\x7d" ∧
    (∀ path, Effect.create path
      ∉ (applyConfiguration exampleEnv exampleModel testSuite (fun _ => none)).effects) :=
  ⟨rfl, rfl, rfl,
    ((applyConfiguration_backs_up_before_write exampleEnv exampleModel testSuite
      (settingsOnly "\x7b\x7d") "/home/user" rfl).1 "\x7b\x7d" rfl).2.1
        ⟨"keys: hooks", by decide⟩,
    ((applyConfiguration_backs_up_before_write exampleEnv exampleModel testSuite
      (fun _ => none) "/home/user" rfl).2 rfl).1⟩

/-- C8 (evaluation of the code). On the document with a user entry under `"tool_start"`, the
second merge of the same suite returns the very map the first one returned, but the key
`"tool_start"`, which is none of the ten external hook names, does not have after the second
merge the value it had in the document: it holds the generated entry. -/
theorem mergeHooks_twice_overwrites_tool_start :
    "tool_start" ∉ externalHookNames ∧
    mapGet ownToolStart "hooks"
      = some (Value.obj [("tool_start", customHook), ("CustomHook", customHook)]) ∧
    ∃ once twice h',
      mergeHooks unixPlatform "afplay" testSuite (some ownToolStart) = Run.done once ∧
      mergeHooks unixPlatform "afplay" testSuite (some once) = Run.done twice ∧
      twice = once ∧
      mapGet twice "hooks" = some (Value.obj h') ∧
      mapGet h' "tool_start" = some (hookEntry unixPlatform "afplay" testSuite "tool_start") ∧
      customHook ≠ hookEntry unixPlatform "afplay" testSuite "tool_start" ∧
      mapGet h' "CustomHook" = some customHook :=
  ⟨by decide, rfl, _, _, _, rfl, rfl, rfl, rfl, rfl, by simp [customHook, hookEntry], rfl⟩

/-- C9 (evaluation of the code at the settings file `null`). The decoder reads the text as JSON
`null`, `json.Unmarshal` leaves the settings map `nil`, and `applyConfiguration` does not return:
it panics on the assignment of `"hooks"`, after the backup was made; `Update` on the confirm key
panics with it. -/
theorem applyConfiguration_panics_on_null :
    settingsOnly "null" (settingsFileOf exampleEnv "/home/user") = some "null" ∧
    exampleEnv.decode "null" = Except.ok Value.null ∧
    jsonUnmarshal exampleEnv.decode "null" [] = Except.ok none ∧
    (applyConfiguration exampleEnv exampleModel testSuite (settingsOnly "null")).result
      = Run.panic "assignment to entry in nil map" ∧
    (applyConfiguration exampleEnv exampleModel testSuite (settingsOnly "null")).effects
      = [ Effect.create "/home/user/.claude/settings.json.backup_20240102_030405",
          Effect.copy "/home/user/.claude/settings.json.backup_20240102_030405" "null" ] ∧
    (Update exampleEnv exampleList confirmingModel (Msg.key "y")
        { fs := settingsOnly "null", trace := [] }).2
      = Run.panic "assignment to entry in nil map" :=
  ⟨rfl, rfl, rfl, rfl, rfl, rfl⟩

/-- C11 as stated fails on the code. The confirm key on a malformed settings file ends in
`failedModel`, with `quitting` set; a second `y` on that model calls `applyConfiguration` again
(the backup is created and copied a second time), and `n` on it clears `confirming` and
`selectedSuite`. The key `q` in the list ends in `cancelledModel`, with `quitting` set; `enter`
on that model sets `confirming` and `selectedSuite`. -/
theorem Update_after_quit_handles_keys :
    (Update exampleEnv exampleList confirmingModel (Msg.key "y") brokenSettings).2
      = Run.done (failedModel, Cmd.quit) ∧
    failedModel.quitting = true ∧
    (Update exampleEnv exampleList confirmingModel (Msg.key "y") brokenSettings).1.trace
      = [ Effect.create "/home/user/.claude/settings.json.backup_20240102_030405",
          Effect.copy "/home/user/.claude/settings.json.backup_20240102_030405" "\x7b broken" ] ∧
    (Update exampleEnv exampleList failedModel (Msg.key "y")
        (Update exampleEnv exampleList confirmingModel (Msg.key "y") brokenSettings).1).1.trace
      = [ Effect.create "/home/user/.claude/settings.json.backup_20240102_030405",
          Effect.copy "/home/user/.claude/settings.json.backup_20240102_030405" "\x7b broken",
          Effect.create "/home/user/.claude/settings.json.backup_20240102_030405",
          Effect.copy "/home/user/.claude/settings.json.backup_20240102_030405" "\x7b broken" ] ∧
    (∃ m', (Update exampleEnv exampleList failedModel (Msg.key "n")
        (Update exampleEnv exampleList confirmingModel (Msg.key "y") brokenSettings).1).2
        = Run.done (m', Cmd.nil) ∧
      failedModel.confirming = true ∧ m'.confirming = false ∧
      failedModel.selectedSuite = some testSuite ∧ m'.selectedSuite = none) ∧
    (Update exampleEnv exampleList exampleModel (Msg.key "q") brokenSettings).2
      = Run.done (cancelledModel, Cmd.quit) ∧
    cancelledModel.quitting = true ∧
    (∃ m', (Update exampleEnv exampleList cancelledModel (Msg.key "enter") brokenSettings).2
        = Run.done (m', Cmd.nil) ∧
      cancelledModel.confirming = false ∧ m'.confirming = true ∧
      cancelledModel.selectedSuite = none ∧ m'.selectedSuite = some testSuite) :=
  ⟨rfl, rfl, rfl, rfl, ⟨_, rfl, rfl, rfl, rfl, rfl⟩, rfl, rfl, ⟨_, rfl, rfl, rfl, rfl, rfl⟩⟩

/-- C11 (amended). `Update` does not test `quitting`; what holds of a model with `quitting` set
and a key message is this. Whenever `Update` returns, `quitting` is still set. Unless the model
is confirming a selected suite and the key is `y` or `Y`, `Update` returns, leaves the files as
they were, makes no call other than starting a preview (so `applyConfiguration` is not run), and
leaves `choice`, `err`, `success` and `quitting` as they were; `confirming` and `selectedSuite`
are left as they were too, unless the key is `n`, `N` or `esc` in a confirming model or `enter`
in a model that is not confirming. -/
theorem Update_after_quit_stays_quit {L : Type} (env : Env) (ui : ListOps L) (m : Model L)
    (keypress : String) (w : World) (hq : m.quitting = true) :
    (∀ m' cmd, (Update env ui m (Msg.key keypress) w).2 = Run.done (m', cmd) →
      m'.quitting = true) ∧
    (¬ (m.confirming = true ∧ (keypress = "y" ∨ keypress = "Y") ∧ m.selectedSuite ≠ none) →
      ∃ m' cmd started,
        (Update env ui m (Msg.key keypress) w).2 = Run.done (m', cmd) ∧
        (Update env ui m (Msg.key keypress) w).1.fs = w.fs ∧
        (Update env ui m (Msg.key keypress) w).1.trace = w.trace ++ started ∧
        (∀ e ∈ started, ∃ name arg, e = Effect.start name arg) ∧
        m'.choice = m.choice ∧ m'.err = m.err ∧ m'.success = m.success ∧
        m'.quitting = m.quitting ∧
        (¬ (m.confirming = true ∧ (keypress = "n" ∨ keypress = "N" ∨ keypress = "esc")) →
          ¬ (m.confirming = false ∧ keypress = "enter") →
          m'.confirming = m.confirming ∧ m'.selectedSuite = m.selectedSuite)) := by
  constructor
  · intro m' cmd h
    simp only [Update] at h
    repeat' split at h
    all_goals
      simp only [Run.done.injEq, Prod.mk.injEq, listUpdate, reduceCtorEq] at h <;>
      obtain ⟨rfl, -⟩ := h <;>
      first
        | exact hq
        | rfl
  · intro hno
    by_cases hc : m.confirming = true
    · by_cases hy : keypress = "y" ∨ keypress = "Y"
      · have hs : m.selectedSuite = none := by
          by_contra hne
          exact hno ⟨hc, hy, hne⟩
        refine ⟨m, Cmd.nil, [], ?_, ?_, ?_, by simp, rfl, rfl, rfl, rfl, fun _ _ => ⟨rfl, rfl⟩⟩ <;>
          simp [Update, hc, hy, hs]
      · by_cases hn : keypress = "n" ∨ keypress = "N" ∨ keypress = "esc"
        · refine ⟨{ m with confirming := false, selectedSuite := none }, Cmd.nil, [], ?_, ?_, ?_,
            by simp, rfl, rfl, rfl, rfl, fun h _ => absurd ⟨hc, hn⟩ h⟩ <;>
            simp [Update, hc, hy, hn]
        · refine ⟨m, Cmd.nil, [], ?_, ?_, ?_, by simp, rfl, rfl, rfl, rfl,
            fun _ _ => ⟨rfl, rfl⟩⟩ <;>
            simp [Update, hc, hy, hn]
    · have hcf : m.confirming = false := by simpa using hc
      by_cases hk1 : keypress = "ctrl+c" ∨ keypress = "q"
      · have hU : Update env ui m (Msg.key keypress) w
            = (w, Run.done ({ m with quitting := true }, Cmd.quit)) := by
          simp only [Update, hcf, hk1, if_true, Bool.false_eq_true, if_false]
        rw [hU]
        exact ⟨_, _, [], rfl, rfl, by simp, by simp, rfl, rfl, rfl, hq.symm,
          fun _ _ => ⟨rfl, rfl⟩⟩
      · by_cases hk2 : keypress = "enter"
        · cases hsel : ui.selectedItem m.list with
          | none =>
            have hU : Update env ui m (Msg.key keypress) w
                = (w, Run.done (listUpdate ui m (Msg.key keypress))) := by
              simp only [Update, hcf, hk1, Bool.false_eq_true, if_false]
              simp only [hk2, hsel, if_true]
            rw [hU]
            exact ⟨_, _, [], rfl, rfl, by simp, by simp, rfl, rfl, rfl, rfl,
              fun _ _ => ⟨rfl, rfl⟩⟩
          | some i =>
            have hU : Update env ui m (Msg.key keypress) w
                = (w, Run.done ({ m with confirming := true, selectedSuite := some i },
                    Cmd.nil)) := by
              simp only [Update, hcf, hk1, Bool.false_eq_true, if_false]
              simp only [hk2, hsel, if_true]
            rw [hU]
            exact ⟨_, _, [], rfl, rfl, by simp, by simp, rfl, rfl, rfl, rfl,
              fun _ h => absurd ⟨hcf, hk2⟩ h⟩
        · by_cases hk3 : keypress = "p" ∨ keypress = " "
          · cases hsel : ui.selectedItem m.list with
            | none =>
              have hU : Update env ui m (Msg.key keypress) w
                  = (w, Run.done (listUpdate ui m (Msg.key keypress))) := by
                simp only [Update, hcf, hk1, hk2, hk3, hsel, if_true, Bool.false_eq_true,
                  if_false]
              rw [hU]
              exact ⟨_, _, [], rfl, rfl, by simp, by simp, rfl, rfl, rfl, rfl,
                fun _ _ => ⟨rfl, rfl⟩⟩
            | some i =>
              by_cases hnow : env.now > m.previewCooldown
              · have hU : Update env ui m (Msg.key keypress) w
                    = ({ w with trace := w.trace ++ playPreview env.toPlatform m i },
                       Run.done (listUpdate ui
                          { m with lastPreview := i.Name,
                                   previewCooldown := env.nowAgain + 1000000000 }
                          (Msg.key keypress))) := by
                  simp only [Update, hcf, hk1, hk2, hk3, hsel, hnow, if_true,
                    Bool.false_eq_true, if_false]
                  rfl
                rw [hU]
                exact ⟨_, _, _, rfl, rfl, rfl, by simp [playPreview], rfl, rfl, rfl, rfl,
                  fun _ _ => ⟨rfl, rfl⟩⟩
              · have hU : Update env ui m (Msg.key keypress) w
                    = (w, Run.done (listUpdate ui m (Msg.key keypress))) := by
                  simp only [Update, hcf, hk1, hk2, hk3, hsel, hnow, if_true,
                    Bool.false_eq_true, if_false]
                rw [hU]
                exact ⟨_, _, [], rfl, rfl, by simp, by simp, rfl, rfl, rfl, rfl,
                  fun _ _ => ⟨rfl, rfl⟩⟩
          · have hU : Update env ui m (Msg.key keypress) w
                = (w, Run.done (listUpdate ui m (Msg.key keypress))) := by
              simp only [Update, hcf, hk1, hk2, hk3, if_true, Bool.false_eq_true, if_false]
            rw [hU]
            exact ⟨_, _, [], rfl, rfl, by simp, by simp, rfl, rfl, rfl, rfl,
              fun _ _ => ⟨rfl, rfl⟩⟩

/-- C11 (amended) at concrete models: after the failed confirm a further `y` leaves `quitting`
set, and a key the dialog does not know leaves the six fields and the machine as they were;
after `q` the key `j` goes to the list and leaves the six fields and the files as they were. -/
theorem Update_after_quit_stays_quit_witness :
    failedModel.quitting = true ∧
    cancelledModel.quitting = true ∧
    (∀ m' cmd, (Update exampleEnv exampleList failedModel (Msg.key "y") brokenSettings).2
        = Run.done (m', cmd) → m'.quitting = true) ∧
    (∃ m' cmd started,
      (Update exampleEnv exampleList failedModel (Msg.key "x") brokenSettings).2
        = Run.done (m', cmd) ∧
      (Update exampleEnv exampleList failedModel (Msg.key "x") brokenSettings).1.fs
        = brokenSettings.fs ∧
      (Update exampleEnv exampleList failedModel (Msg.key "x") brokenSettings).1.trace
        = brokenSettings.trace ++ started ∧
      (∀ e ∈ started, ∃ name arg, e = Effect.start name arg) ∧
      m'.choice = failedModel.choice ∧ m'.err = failedModel.err ∧
      m'.success = failedModel.success ∧ m'.quitting = failedModel.quitting ∧
      m'.confirming = failedModel.confirming ∧
      m'.selectedSuite = failedModel.selectedSuite) ∧
    (∃ m' cmd started,
      (Update exampleEnv exampleList cancelledModel (Msg.key "j") brokenSettings).2
        = Run.done (m', cmd) ∧
      (Update exampleEnv exampleList cancelledModel (Msg.key "j") brokenSettings).1.fs
        = brokenSettings.fs ∧
      (Update exampleEnv exampleList cancelledModel (Msg.key "j") brokenSettings).1.trace
        = brokenSettings.trace ++ started ∧
      (∀ e ∈ started, ∃ name arg, e = Effect.start name arg) ∧
      m'.choice = cancelledModel.choice ∧ m'.err = cancelledModel.err ∧
      m'.success = cancelledModel.success ∧ m'.quitting = cancelledModel.quitting ∧
      m'.confirming = cancelledModel.confirming ∧
      m'.selectedSuite = cancelledModel.selectedSuite) := by
  refine ⟨rfl, rfl,
    (Update_after_quit_stays_quit exampleEnv exampleList failedModel "y" brokenSettings rfl).1,
    ?_, ?_⟩
  · obtain ⟨m', cmd, started, h1, h2, h3, h4, h5, h6, h7, h8, h9⟩ :=
      (Update_after_quit_stays_quit exampleEnv exampleList failedModel "x" brokenSettings rfl).2
        (fun h => absurd h.2.1 (by decide))
    exact ⟨m', cmd, started, h1, h2, h3, h4, h5, h6, h7, h8,
      (h9 (fun h => absurd h.2 (by decide)) (fun h => absurd h.2 (by decide))).1,
      (h9 (fun h => absurd h.2 (by decide)) (fun h => absurd h.2 (by decide))).2⟩
  · obtain ⟨m', cmd, started, h1, h2, h3, h4, h5, h6, h7, h8, h9⟩ :=
      (Update_after_quit_stays_quit exampleEnv exampleList cancelledModel "j" brokenSettings rfl).2
        (fun h => absurd h.2.1 (by decide))
    exact ⟨m', cmd, started, h1, h2, h3, h4, h5, h6, h7, h8,
      (h9 (fun h => absurd h.2 (by decide)) (fun h => absurd h.2 (by decide))).1,
      (h9 (fun h => absurd h.2 (by decide)) (fun h => absurd h.2 (by decide))).2⟩

end ClaudeCodeSounds
